import Mathlib

/-!
Verification of the HTML translation pipeline (`translate_html.py`).

The development shallowly embeds the pure decision logic of the program:
the translation memory (a Python `dict` from source string to translated
string), the three provider stages (`translate_with_libre`,
`translate_with_deepl`, `refine_with_gpt`), the per-string resolver
(`apply_translation`), the memory loader (`load_memory`), the per-file
pipeline (`translate_html_file` / the `__main__` batch loop), the output
path computation (`file_path.replace(".html", f"-{lang}.html")`) and the
hyperlink rewrite (`re.sub(r'\.html$', f'-{lang}.html', href)` under its
guard).  Network calls are modelled as explicit function parameters
returning `Option String` (`none` = any failure: exception, timeout,
non-success status, malformed response), matching the `try/except`
structure of the source.
-/

namespace TranslateHtml

/-- The translation memory: a Python `dict` from source string to
translated string, modelled as an association list with unique keys kept
in insertion order (Python 3 dict semantics). -/
abbrev Mem := List (String × String)

/-- Python `k in d` / `d[k]`: first (and, with unique keys, only)
binding of `k`. -/
def lookup : Mem → String → Option String
  | [], _ => none
  | (k, v) :: rest, key => if k = key then some v else lookup rest key

/-- Python `d[k] = v`: update the existing binding in place, else append
a new binding at the end (insertion order). -/
def dictSet : Mem → String → String → Mem
  | [], k, v => [(k, v)]
  | (k0, v0) :: rest, k, v =>
    if k0 = k then (k, v) :: rest else (k0, v0) :: dictSet rest k v

/-- The whitespace set of Python `str.strip()`, restricted to the ASCII
whitespace characters (the model does not cover non-ASCII Unicode
whitespace, which the claims never exercise). -/
def isPySpace (c : Char) : Bool :=
  c = ' ' || c = '\t' || c = '\n' || c = '\r' || c = '\x0b' || c = '\x0c'

/-- Python `text.strip()`. -/
def pyStrip (s : String) : String :=
  String.mk (((s.data.dropWhile isPySpace).reverse.dropWhile isPySpace).reverse)

/-- `translate_with_libre(text, target_lang)`: try each LibreTranslate
server in order; the first server whose HTTP response is `ok` and whose
body parses wins (`some t`); any exception or non-ok response (`none`)
moves on to the next server; if every server fails, return the input
text unchanged.  A server is modelled as a function from the query text
to `Option String`, the target language being fixed for the run. -/
def translate_with_libre (servers : List (String → Option String)) (text : String) : String :=
  match servers with
  | [] => text
  | s :: rest =>
    match s text with
    | some t => t
    | none => translate_with_libre rest text

/-- `translate_with_deepl(text, target_lang_code)`: with no
`DEEPL_API_KEY` the stage returns the input unchanged; otherwise the API
call (`none` = non-200 status or exception) either yields the
translation or falls back to the input text. -/
def translate_with_deepl (apiKey : Option String) (api : String → Option String)
    (text : String) : String :=
  match apiKey with
  | none => text
  | some _ =>
    match api text with
    | none => text
    | some t => t

/-- `refine_with_gpt(text, translation, target_lang)`: without the
OpenAI integration (`has_openai = false`) the stage returns the
candidate translation unchanged; otherwise the chat call (`none` = any
exception) either yields the polished text, which the source strips
(`response.choices[0].message.content.strip()`), or falls back to the
candidate translation. -/
def refine_with_gpt (hasOpenai : Bool) (gpt : String → String → Option String)
    (text translation : String) : String :=
  if hasOpenai then
    match gpt text translation with
    | none => translation
    | some r => pyStrip r
  else translation

/-- Outcome of one `apply_translation` call: the returned string, the
memory afterwards, and how many times each provider stage was entered. -/
structure ResolveOut where
  result : String
  memory : Mem
  libreCalls : Nat
  deeplCalls : Nat
  refineCalls : Nat
deriving Repr, DecidableEq

/-- `apply_translation(text, memory, target_lang)`: trim; return trimmed
empty input as-is; return a memory hit; otherwise LibreTranslate, then
DeepL only if LibreTranslate returned the original, then either record
the identity mapping (chain returned the original) or refine and record
the final result.  The three stages are parameters, each already
specialised to the run's target language. -/
def apply_translation (libre deepl : String → String) (refine : String → String → String)
    (text : String) (memory : Mem) : ResolveOut :=
  let original := pyStrip text
  if original = "" then
    ⟨original, memory, 0, 0, 0⟩
  else
    match lookup memory original with
    | some v => ⟨v, memory, 0, 0, 0⟩
    | none =>
      let libreR := libre original
      let deeplR := if libreR = original then deepl original else libreR
      let deeplCalls := if libreR = original then 1 else 0
      if deeplR = original then
        ⟨original, dictSet memory original original, 1, deeplCalls, 0⟩
      else
        let final := refine original deeplR
        ⟨final, dictSet memory original final, 1, deeplCalls, 1⟩

/-- The provider chain of §4.2 as a single function: LibreTranslate,
DeepL on LibreTranslate failure, refinement only on a non-identical
candidate.  `apply_translation` computes exactly this value on a cache
miss (proved below). -/
def provider_chain (libre deepl : String → String) (refine : String → String → String)
    (original : String) : String :=
  let libreR := libre original
  let deeplR := if libreR = original then deepl original else libreR
  if deeplR = original then original else refine original deeplR

/-- `load_memory()`: the durable file is `none` when missing, otherwise
its text content; `parse` models `json.load`, with `Except.error` for a
`json.JSONDecodeError` (caught; an empty mapping is returned after a
logged error).  A well-formed file yields its stored mapping. -/
def load_memory (parse : String → Except String Mem) (file : Option String) : Mem :=
  match file with
  | none => []
  | some content =>
    match parse content with
    | Except.error _ => []
    | Except.ok m => m

/-- One input file of a batch run, with the environment facts the
per-file pipeline branches on: whether the output path already exists,
the parsed document's translatable units in walk order (`alt`/`title`
attributes, then text nodes) or `none` when the file is unreadable,
unparsable or empty, and whether the output write succeeds. -/
structure FileJob where
  outputExists : Bool
  parsed : Option (List String)
  writeOk : Bool

/-- State of the durable side of a batch run: the memory store on disk
(modelled at the mapping level; its JSON round-trips by `load_memory`),
plus counters for the load and save events the run performs. -/
structure RunState where
  store : Mem
  loads : Nat
  saves : Nat
deriving Repr, DecidableEq

/-- The document walk of `translate_html_file` restricted to its effect
on the memory: fold `apply_translation` over the translatable units in
walk order. -/
def walk_units (libre deepl : String → String) (refine : String → String → String) :
    List String → Mem → Mem
  | [], m => m
  | t :: rest, m =>
    walk_units libre deepl refine rest (apply_translation libre deepl refine t m).memory

/-- `translate_html_file(file_path, target_lang, force)`: load the
memory from durable storage (before the skip check, so even a skipped
file loads); skip when the output exists and `force` is unset; skip an
unreadable/unparsable/empty input; otherwise walk the document and, when
the output write succeeds, save the mutated memory and report success.
A failed write saves nothing. -/
def translate_html_file (libre deepl : String → String) (refine : String → String → String)
    (force : Bool) (job : FileJob) (st : RunState) : RunState × Bool :=
  let memory := st.store
  let st1 : RunState := { st with loads := st.loads + 1 }
  if job.outputExists && !force then
    (st1, false)
  else
    match job.parsed with
    | none => (st1, false)
    | some units =>
      let memory1 := walk_units libre deepl refine units memory
      if job.writeOk then
        ({ st1 with store := memory1, saves := st1.saves + 1 }, true)
      else
        (st1, false)

/-- The `__main__` batch loop: process each discovered file in turn with
`translate_html_file`, accumulating the success count. -/
def run_batch (libre deepl : String → String) (refine : String → String → String)
    (force : Bool) (jobs : List FileJob) (st : RunState) : RunState × Nat :=
  match jobs with
  | [] => (st, 0)
  | j :: rest =>
    let out := translate_html_file libre deepl refine force j st
    let outRest := run_batch libre deepl refine force rest out.fst
    (outRest.fst, (if out.snd then 1 else 0) + outRest.snd)

/-- Python `s.replace(pat, repl)` on character lists: replace every
non-overlapping occurrence of `pat`, scanning left to right.  The `skip`
counter is the number of characters of a just-matched occurrence still
to consume without emitting; on a match at `skip = 0` the replacement is
emitted and the remaining `pat.length - 1` matched characters are
skipped.  (The `pat = []` case of Python inserts `repl` between
characters; the program only ever replaces the non-empty pattern
`".html"`, and the model keeps such a string unchanged.) -/
def replaceAllAux (pat repl : List Char) : List Char → Nat → List Char
  | [], _ => []
  | _ :: rest, skip + 1 => replaceAllAux pat repl rest skip
  | c :: rest, 0 =>
    if pat ≠ [] ∧ pat.isPrefixOf (c :: rest) then
      repl ++ replaceAllAux pat repl rest (pat.length - 1)
    else
      c :: replaceAllAux pat repl rest 0

/-- Python `s.replace(pat, repl)` on character lists (see
`replaceAllAux`): scan from a state with nothing left to skip. -/
def replaceAll (pat repl s : List Char) : List Char :=
  replaceAllAux pat repl s 0

/-- Python `s.replace(pat, repl)` on strings. -/
def pyReplace (s pat repl : String) : String :=
  String.mk (replaceAll pat.data repl.data s.data)

/-- Line 176: `output_path = file_path.replace(".html", f"-{target_lang}.html")`. -/
def output_path (target_lang file_path : String) : String :=
  pyReplace file_path ".html" ("-" ++ target_lang ++ ".html")

/-- Python `s.endswith(suffix)`. -/
def pyEndswith (s suffix : String) : Bool :=
  suffix.data.isSuffixOf s.data

/-- The hyperlink localisation of the document walk: when the `href`
ends in `.html` but not already in `-<lang>.html`, apply
`re.sub(r'\.html$', f'-{lang}.html', href)` — the anchored pattern has
exactly one match under the guard, namely the trailing `.html`, so the
substitution keeps all but the last five characters and appends
`-<lang>.html`; otherwise the `href` is untouched. -/
def rewrite_href (lang href : String) : String :=
  if pyEndswith href ".html" && !pyEndswith href ("-" ++ lang ++ ".html") then
    String.mk (href.data.take (href.data.length - ".html".data.length))
      ++ ("-" ++ lang ++ ".html")
  else href

/-- The set of files the `__main__` block actually processes, as a
function of the discovered HTML files and the parsed `--include` value:
the loop `for file in html_files` iterates the discovery result
directly, and `args.include` — though declared by `argparse` with help
text promising a restriction to the listed files — is never read
anywhere in the program, so the parsed value has no effect. -/
def processed_files (htmlFiles : List String) (includeArg : Option String) : List String :=
  htmlFiles

/-! ### Helper lemmas about the memory -/

theorem dictSet_eq_append (m : Mem) (k v : String) (h : lookup m k = none) :
    dictSet m k v = m ++ [(k, v)] := by
  induction m with
  | nil => rfl
  | cons p rest ih =>
    obtain ⟨k0, v0⟩ := p
    simp only [lookup] at h
    by_cases hk : k0 = k
    · simp [hk] at h
    · simp only [dictSet, if_neg hk, List.cons_append, List.cons.injEq, true_and]
      exact ih (by simpa [hk] using h)

theorem lookup_append_of_some (m m2 : Mem) (k v : String) (h : lookup m k = some v) :
    lookup (m ++ m2) k = some v := by
  induction m with
  | nil => simp [lookup] at h
  | cons p rest ih =>
    obtain ⟨k0, v0⟩ := p
    simp only [lookup] at h ⊢
    by_cases hk : k0 = k
    · simpa [hk] using h
    · simp only [if_neg hk] at h ⊢
      exact ih h

theorem lookup_append_of_none (m m2 : Mem) (k : String) (h : lookup m k = none) :
    lookup (m ++ m2) k = lookup m2 k := by
  induction m with
  | nil => rfl
  | cons p rest ih =>
    obtain ⟨k0, v0⟩ := p
    simp only [lookup] at h ⊢
    by_cases hk : k0 = k
    · simp [hk] at h
    · simp only [if_neg hk] at h ⊢
      exact ih h

/-- On a non-empty cache miss, `apply_translation` returns exactly the
provider chain's value, records it under the trimmed original, and
enters the stages as the control flow dictates. -/
theorem apply_translation_miss (libre deepl : String → String)
    (refine : String → String → String) (text : String) (m : Mem)
    (hne : pyStrip text ≠ "") (hmiss : lookup m (pyStrip text) = none) :
    apply_translation libre deepl refine text m =
      { result := provider_chain libre deepl refine (pyStrip text)
        memory := dictSet m (pyStrip text)
          (provider_chain libre deepl refine (pyStrip text))
        libreCalls := 1
        deeplCalls := if libre (pyStrip text) = pyStrip text then 1 else 0
        refineCalls :=
          if (if libre (pyStrip text) = pyStrip text then deepl (pyStrip text)
              else libre (pyStrip text)) = pyStrip text then 0 else 1 } := by
  unfold apply_translation provider_chain
  simp only [if_neg hne, hmiss]
  by_cases hcand :
      (if libre (pyStrip text) = pyStrip text then deepl (pyStrip text)
        else libre (pyStrip text)) = pyStrip text
  · simp [hcand]
  · simp [hcand]

/-! ### Claim theorems: the resolver -/

/-- C1: `apply_translation` trims its input; a trimmed-empty input is
returned as-is with no memory entry and no provider call; on a non-empty
cache miss the provider chain runs, an identity result is recorded as the
identity mapping and the original returned, and a differing result is
recorded and returned. -/
theorem C1_resolver_algorithm (libre deepl : String → String)
    (refine : String → String → String) (text : String) (m : Mem) :
    (pyStrip text = "" →
      apply_translation libre deepl refine text m = ⟨pyStrip text, m, 0, 0, 0⟩) ∧
    (pyStrip text ≠ "" → lookup m (pyStrip text) = none →
      ((provider_chain libre deepl refine (pyStrip text) = pyStrip text →
        (apply_translation libre deepl refine text m).result = pyStrip text ∧
        (apply_translation libre deepl refine text m).memory =
          dictSet m (pyStrip text) (pyStrip text)) ∧
      (provider_chain libre deepl refine (pyStrip text) ≠ pyStrip text →
        (apply_translation libre deepl refine text m).result =
          provider_chain libre deepl refine (pyStrip text) ∧
        (apply_translation libre deepl refine text m).memory =
          dictSet m (pyStrip text)
            (provider_chain libre deepl refine (pyStrip text))))) := by
  constructor
  · intro he
    unfold apply_translation
    simp [he]
  · intro hne hmiss
    have heq := apply_translation_miss libre deepl refine text m hne hmiss
    constructor
    · intro hid
      rw [heq]
      simp [hid]
    · intro hid
      rw [heq]
      exact ⟨rfl, rfl⟩

/-- C1 witness: concrete instances of both branches — a whitespace-only
input is returned as-is with untouched memory, and a fresh input whose
chain produces a differing result is recorded and returned. -/
theorem C1_resolver_algorithm_witness :
    apply_translation (fun s => s) (fun s => "de:" ++ s) (fun _ t => t) "  " [] =
      ⟨"", [], 0, 0, 0⟩ ∧
    ((apply_translation (fun s => s) (fun s => "de:" ++ s) (fun _ t => t) "Hi" []).result =
        provider_chain (fun s => s) (fun s => "de:" ++ s) (fun _ t => t) "Hi" ∧
      (apply_translation (fun s => s) (fun s => "de:" ++ s) (fun _ t => t) "Hi" []).memory =
        dictSet [] "Hi" (provider_chain (fun s => s) (fun s => "de:" ++ s) (fun _ t => t) "Hi")) :=
  ⟨(C1_resolver_algorithm (fun s => s) (fun s => "de:" ++ s) (fun _ t => t) "  " []).1
      (by decide),
    ((C1_resolver_algorithm (fun s => s) (fun s => "de:" ++ s) (fun _ t => t) "Hi" []).2
      (by decide) (by decide)).2 (by decide)⟩

/-- C2: a non-empty trimmed string already in memory is answered from
memory with no provider call and no memory change; and a repeated call
with the same input on the memory produced by a first call is a pure
cache hit returning the first call's result. -/
theorem C2_memoization (libre deepl : String → String)
    (refine : String → String → String) (text : String) (m : Mem) :
    (∀ v, pyStrip text ≠ "" → lookup m (pyStrip text) = some v →
      apply_translation libre deepl refine text m = ⟨v, m, 0, 0, 0⟩) ∧
    (pyStrip text ≠ "" →
      apply_translation libre deepl refine text
          (apply_translation libre deepl refine text m).memory =
        ⟨(apply_translation libre deepl refine text m).result,
          (apply_translation libre deepl refine text m).memory, 0, 0, 0⟩) := by
  have hit : ∀ (m' : Mem) v, pyStrip text ≠ "" → lookup m' (pyStrip text) = some v →
      apply_translation libre deepl refine text m' = ⟨v, m', 0, 0, 0⟩ := by
    intro m' v hne hsome
    unfold apply_translation
    simp [if_neg hne, hsome]
  refine ⟨fun v => hit m v, ?_⟩
  intro hne
  cases hmiss : lookup m (pyStrip text) with
  | some v =>
    have h1 := hit m v hne hmiss
    rw [h1]
    exact hit m v hne hmiss
  | none =>
    have h1 := apply_translation_miss libre deepl refine text m hne hmiss
    rw [h1]
    apply hit
    · exact hne
    · rw [dictSet_eq_append m _ _ hmiss, lookup_append_of_none m _ _ hmiss]
      simp [lookup]

/-- C2 witness: a concrete cache hit returns the stored value with no
provider call, and a concrete repeated call returns the first result. -/
theorem C2_memoization_witness :
    apply_translation (fun s => s) (fun s => "de:" ++ s) (fun _ t => t) "Hi"
        [("Hi", "Salut")] =
      ⟨"Salut", [("Hi", "Salut")], 0, 0, 0⟩ ∧
    apply_translation (fun s => s) (fun s => "de:" ++ s) (fun _ t => t) "Hi"
        (apply_translation (fun s => s) (fun s => "de:" ++ s) (fun _ t => t) "Hi" []).memory =
      ⟨(apply_translation (fun s => s) (fun s => "de:" ++ s) (fun _ t => t) "Hi" []).result,
        (apply_translation (fun s => s) (fun s => "de:" ++ s) (fun _ t => t) "Hi" []).memory,
        0, 0, 0⟩ :=
  ⟨(C2_memoization (fun s => s) (fun s => "de:" ++ s) (fun _ t => t) "Hi"
      [("Hi", "Salut")]).1 "Salut" (by decide) (by decide),
    (C2_memoization (fun s => s) (fun s => "de:" ++ s) (fun _ t => t) "Hi" []).2 (by decide)⟩

/-- C10: `apply_translation` mutates the memory only monotonically —
every binding present before the call is preserved unchanged, and the
memory either stays as it was or gains exactly one appended entry whose
key is the trimmed, non-empty input. -/
theorem C10_memory_monotone (libre deepl : String → String)
    (refine : String → String → String) (text : String) (m : Mem) :
    (∀ k v, lookup m k = some v →
      lookup (apply_translation libre deepl refine text m).memory k = some v) ∧
    ((apply_translation libre deepl refine text m).memory = m ∨
      (pyStrip text ≠ "" ∧
        (apply_translation libre deepl refine text m).memory =
          m ++ [(pyStrip text, (apply_translation libre deepl refine text m).result)])) := by
  by_cases hne : pyStrip text = ""
  · have : apply_translation libre deepl refine text m = ⟨pyStrip text, m, 0, 0, 0⟩ := by
      unfold apply_translation
      simp [hne]
    rw [this]
    exact ⟨fun k v h => h, Or.inl rfl⟩
  · cases hmiss : lookup m (pyStrip text) with
    | some v =>
      have : apply_translation libre deepl refine text m = ⟨v, m, 0, 0, 0⟩ := by
        unfold apply_translation
        simp [if_neg hne, hmiss]
      rw [this]
      exact ⟨fun k v h => h, Or.inl rfl⟩
    | none =>
      have h1 := apply_translation_miss libre deepl refine text m hne hmiss
      rw [h1]
      simp only
      rw [dictSet_eq_append m _ _ hmiss]
      exact ⟨fun k v h => lookup_append_of_some m _ k v h, Or.inr ⟨hne, rfl⟩⟩

/-- C10 witness: a concrete call preserves an existing binding and
appends exactly the trimmed input's new entry. -/
theorem C10_memory_monotone_witness :
    lookup (apply_translation (fun s => s) (fun s => "de:" ++ s) (fun _ t => t) "Hi"
        [("Old", "Alt")]).memory "Old" = some "Alt" ∧
    ((apply_translation (fun s => s) (fun s => "de:" ++ s) (fun _ t => t) "Hi"
        [("Old", "Alt")]).memory = [("Old", "Alt")] ∨
      (pyStrip "Hi" ≠ "" ∧
        (apply_translation (fun s => s) (fun s => "de:" ++ s) (fun _ t => t) "Hi"
            [("Old", "Alt")]).memory =
          [("Old", "Alt")] ++ [(pyStrip "Hi",
            (apply_translation (fun s => s) (fun s => "de:" ++ s) (fun _ t => t) "Hi"
              [("Old", "Alt")]).result)])) :=
  ⟨(C10_memory_monotone (fun s => s) (fun s => "de:" ++ s) (fun _ t => t) "Hi"
      [("Old", "Alt")]).1 "Old" "Alt" (by decide),
    (C10_memory_monotone (fun s => s) (fun s => "de:" ++ s) (fun _ t => t) "Hi"
      [("Old", "Alt")]).2⟩

/-- The chain's candidate before refinement — the `deepl` variable of
the source: LibreTranslate's answer, or DeepL's when LibreTranslate
returned the original. -/
def chain_candidate (libre deepl : String → String) (original : String) : String :=
  if libre original = original then deepl original else libre original

/-- C3: the paid provider is a pass-through without a credential; DeepL
is entered exactly when LibreTranslate failed (returned its input); and
the concrete fallback scenario — bulk provider echoing its input, paid
provider prefixing the language — resolves "Hello" for "es" to
"es:Hello" and records that mapping. -/
theorem C3_provider_fallback :
    (∀ (api : String → Option String) (text : String),
      translate_with_deepl none api text = text) ∧
    (∀ (libre deepl : String → String) (refine : String → String → String)
        (text : String) (m : Mem),
      pyStrip text ≠ "" → lookup m (pyStrip text) = none →
      (apply_translation libre deepl refine text m).deeplCalls =
        if libre (pyStrip text) = pyStrip text then 1 else 0) ∧
    apply_translation (translate_with_libre [fun s => some s])
        (translate_with_deepl (some "key") (fun s => some ("es:" ++ s)))
        (refine_with_gpt false (fun _ _ => none)) "Hello" [] =
      ⟨"es:Hello", [("Hello", "es:Hello")], 1, 1, 1⟩ := by
  refine ⟨fun api text => rfl, ?_, by decide⟩
  intro libre deepl refine text m hne hmiss
  rw [apply_translation_miss libre deepl refine text m hne hmiss]

/-- C3 witness: the credential-free paid stage passes a concrete input
through, and a concrete miss enters DeepL exactly once because
LibreTranslate echoed the original. -/
theorem C3_provider_fallback_witness :
    translate_with_deepl none (fun s => some ("x:" ++ s)) "Hello" = "Hello" ∧
    (apply_translation (fun s => s) (fun s => "es:" ++ s) (fun _ t => t) "Hello" []).deeplCalls =
      if pyStrip "Hello" = pyStrip "Hello" then 1 else 0 :=
  ⟨C3_provider_fallback.1 (fun s => some ("x:" ++ s)) "Hello",
    C3_provider_fallback.2.1 (fun s => s) (fun s => "es:" ++ s) (fun _ t => t) "Hello" []
      (by decide) (by decide)⟩

/-- C4: the refinement stage is entered exactly when the chain's
candidate differs from the original; without its credential it passes
the candidate through; a failing refinement call passes the candidate
through; and with a failing refinement service, `apply_translation`
returns the pre-refinement candidate, which differs from the original. -/
theorem C4_refinement_fallback :
    (∀ (libre deepl : String → String) (refine : String → String → String)
        (text : String) (m : Mem),
      pyStrip text ≠ "" → lookup m (pyStrip text) = none →
      ((apply_translation libre deepl refine text m).refineCalls = 1 ↔
        chain_candidate libre deepl (pyStrip text) ≠ pyStrip text)) ∧
    (∀ (gpt : String → String → Option String) (text cand : String),
      refine_with_gpt false gpt text cand = cand) ∧
    (∀ (gpt : String → String → Option String) (text cand : String),
      gpt text cand = none → refine_with_gpt true gpt text cand = cand) ∧
    (∀ (libre deepl : String → String) (gpt : String → String → Option String)
        (text : String) (m : Mem),
      pyStrip text ≠ "" → lookup m (pyStrip text) = none →
      (∀ a b, gpt a b = none) →
      chain_candidate libre deepl (pyStrip text) ≠ pyStrip text →
      (apply_translation libre deepl (refine_with_gpt true gpt) text m).result =
        chain_candidate libre deepl (pyStrip text)) := by
  refine ⟨?_, fun gpt text cand => rfl, ?_, ?_⟩
  · intro libre deepl refine text m hne hmiss
    rw [apply_translation_miss libre deepl refine text m hne hmiss]
    unfold chain_candidate
    by_cases hcand :
        (if libre (pyStrip text) = pyStrip text then deepl (pyStrip text)
          else libre (pyStrip text)) = pyStrip text
    · simp [hcand]
    · simp [hcand]
  · intro gpt text cand hfail
    unfold refine_with_gpt
    simp [hfail]
  · intro libre deepl gpt text m hne hmiss hfail hcand
    rw [apply_translation_miss libre deepl (refine_with_gpt true gpt) text m hne hmiss]
    unfold chain_candidate at hcand ⊢
    unfold provider_chain
    simp only [if_neg hcand]
    unfold refine_with_gpt
    simp [hfail]

/-- C4 witness: concrete instances — the refinement stage is entered on
a changed candidate, skipped stages pass through, and a failing
refinement service leaves the candidate as the result. -/
theorem C4_refinement_fallback_witness :
    ((apply_translation (fun s => s) (fun s => "es:" ++ s) (fun _ t => t) "Hello" []).refineCalls
        = 1 ↔ chain_candidate (fun s => s) (fun s => "es:" ++ s) (pyStrip "Hello") ≠
          pyStrip "Hello") ∧
    refine_with_gpt false (fun _ _ => some "junk") "Hello" "es:Hello" = "es:Hello" ∧
    refine_with_gpt true (fun _ _ => none) "Hello" "es:Hello" = "es:Hello" ∧
    (apply_translation (fun s => s) (fun s => "es:" ++ s)
        (refine_with_gpt true (fun _ _ => none)) "Hello" []).result =
      chain_candidate (fun s => s) (fun s => "es:" ++ s) (pyStrip "Hello") :=
  ⟨C4_refinement_fallback.1 (fun s => s) (fun s => "es:" ++ s) (fun _ t => t) "Hello" []
      (by decide) (by decide),
    C4_refinement_fallback.2.1 (fun _ _ => some "junk") "Hello" "es:Hello",
    C4_refinement_fallback.2.2.1 (fun _ _ => none) "Hello" "es:Hello" rfl,
    C4_refinement_fallback.2.2.2 (fun s => s) (fun s => "es:" ++ s) (fun _ _ => none)
      "Hello" [] (by decide) (by decide) (fun a b => rfl) (by decide)⟩

/-- C5: `load_memory` is total — on a missing durable file it returns
the empty mapping, on content the JSON parser rejects it returns the
empty mapping (after a logged error) instead of raising, and on
well-formed content it returns the stored mapping. -/
theorem C5_load_memory_total (parse : String → Except String Mem) (file : Option String) :
    (file = none → load_memory parse file = []) ∧
    (∀ c e, file = some c → parse c = Except.error e → load_memory parse file = []) ∧
    (∀ c mm, file = some c → parse c = Except.ok mm → load_memory parse file = mm) := by
  refine ⟨?_, ?_, ?_⟩
  · intro hf
    rw [hf]
    rfl
  · intro c e hf hp
    rw [hf]
    simp [load_memory, hp]
  · intro c mm hf hp
    rw [hf]
    simp [load_memory, hp]

/-- C5 witness: with a concrete parser, a missing file and a corrupt
file both load as the empty mapping, and a well-formed file loads its
mapping. -/
theorem C5_load_memory_total_witness :
    load_memory (fun c => if c = "ok" then Except.ok [("a", "b")] else Except.error "bad")
        none = [] ∧
    load_memory (fun c => if c = "ok" then Except.ok [("a", "b")] else Except.error "bad")
        (some "garbage") = [] ∧
    load_memory (fun c => if c = "ok" then Except.ok [("a", "b")] else Except.error "bad")
        (some "ok") = [("a", "b")] :=
  ⟨(C5_load_memory_total (fun c => if c = "ok" then Except.ok [("a", "b")]
      else Except.error "bad") none).1 rfl,
    (C5_load_memory_total (fun c => if c = "ok" then Except.ok [("a", "b")]
      else Except.error "bad") (some "garbage")).2.1 "garbage" "bad" rfl rfl,
    (C5_load_memory_total (fun c => if c = "ok" then Except.ok [("a", "b")]
      else Except.error "bad") (some "ok")).2.2 "ok" [("a", "b")] rfl rfl⟩

/-- C6 counterexample: a two-file batch loads the durable memory twice —
once at the start of each file's processing — not once at the start of
the run as the claim states. -/
theorem C6_batch_load_count :
    (run_batch (fun s => s) (fun s => s) (fun _ t => t) false
      [⟨false, some [], true⟩, ⟨false, some [], true⟩] ⟨[], 0, 0⟩).fst.loads = 2 ∧
    (run_batch (fun s => s) (fun s => s) (fun _ t => t) false
      [⟨false, some [], true⟩, ⟨false, some [], true⟩] ⟨[], 0, 0⟩).fst.loads ≠ 1 := by
  constructor
  · rfl
  · decide

/-- C6 (amended): each `translate_html_file` call loads the durable
memory exactly once at its start (so a batch loads once per file, not
once per run); a successfully processed file saves the walked memory to
durable storage immediately, so partial runs keep partial progress; a
skipped or failed file saves nothing and leaves the store unchanged. -/
theorem C6_memory_lifecycle_amended (libre deepl : String → String)
    (refine : String → String → String) (force : Bool) (job : FileJob) (st : RunState) :
    (translate_html_file libre deepl refine force job st).fst.loads = st.loads + 1 ∧
    ((translate_html_file libre deepl refine force job st).snd = true →
      ∃ units, job.parsed = some units ∧
        (translate_html_file libre deepl refine force job st).fst.saves = st.saves + 1 ∧
        (translate_html_file libre deepl refine force job st).fst.store =
          walk_units libre deepl refine units st.store) ∧
    ((translate_html_file libre deepl refine force job st).snd = false →
      (translate_html_file libre deepl refine force job st).fst.saves = st.saves ∧
      (translate_html_file libre deepl refine force job st).fst.store = st.store) := by
  unfold translate_html_file
  by_cases hskip : (job.outputExists && !force) = true
  · simp [hskip]
  · simp only [hskip, Bool.false_eq_true, if_false, if_neg]
    cases hp : job.parsed with
    | none => simp
    | some units =>
      by_cases hw : job.writeOk = true
      · simp [hw]
      · simp only [Bool.not_eq_true] at hw
        simp [hw]

/-- C6 (amended) witness: a concrete successful file increments both
counters and stores the walked memory; a concrete skipped file loads but
does not save. -/
theorem C6_memory_lifecycle_amended_witness :
    (translate_html_file (fun s => s) (fun s => "fr:" ++ s) (fun _ t => t) false
      ⟨false, some ["Hi"], true⟩ ⟨[], 0, 0⟩).fst.loads = 0 + 1 ∧
    ((translate_html_file (fun s => s) (fun s => "fr:" ++ s) (fun _ t => t) false
        ⟨false, some ["Hi"], true⟩ ⟨[], 0, 0⟩).fst.saves = 0 + 1 ∧
      (translate_html_file (fun s => s) (fun s => "fr:" ++ s) (fun _ t => t) false
        ⟨false, some ["Hi"], true⟩ ⟨[], 0, 0⟩).fst.store =
        walk_units (fun s => s) (fun s => "fr:" ++ s) (fun _ t => t) ["Hi"] []) ∧
    ((translate_html_file (fun s => s) (fun s => "fr:" ++ s) (fun _ t => t) false
        ⟨true, some [], true⟩ ⟨[], 0, 0⟩).fst.saves = 0 ∧
      (translate_html_file (fun s => s) (fun s => "fr:" ++ s) (fun _ t => t) false
        ⟨true, some [], true⟩ ⟨[], 0, 0⟩).fst.store = []) := by
  refine ⟨(C6_memory_lifecycle_amended (fun s => s) (fun s => "fr:" ++ s) (fun _ t => t) false
      ⟨false, some ["Hi"], true⟩ ⟨[], 0, 0⟩).1, ?_, ?_⟩
  · obtain ⟨units, hu, hs, hst⟩ :=
      (C6_memory_lifecycle_amended (fun s => s) (fun s => "fr:" ++ s) (fun _ t => t) false
        ⟨false, some ["Hi"], true⟩ ⟨[], 0, 0⟩).2.1 rfl
    have : units = ["Hi"] := by
      simpa using hu.symm
    rw [this] at hst
    exact ⟨hs, hst⟩
  · exact (C6_memory_lifecycle_amended (fun s => s) (fun s => "fr:" ++ s) (fun _ t => t) false
      ⟨true, some [], true⟩ ⟨[], 0, 0⟩).2.2 rfl

/-! ### Helper lemmas about `replaceAll` -/

theorem replaceAllAux_skip_length (pat repl : List Char) :
    ∀ s : List Char, replaceAllAux pat repl s s.length = [] := by
  intro s
  induction s with
  | nil => rfl
  | cons c rest ih =>
    simp only [List.length_cons, replaceAllAux]
    exact ih

/-- When the pattern occurs in `xs ++ pat` at no position inside `xs`,
replacing rewrites exactly the trailing occurrence. -/
theorem replaceAll_no_earlier (pat repl : List Char) (hp : pat ≠ []) :
    ∀ xs : List Char,
      (∀ i, i < xs.length → pat.isPrefixOf ((xs ++ pat).drop i) = false) →
      replaceAll pat repl (xs ++ pat) = xs ++ repl := by
  intro xs
  induction xs with
  | nil =>
    intro _
    cases pat with
    | nil => exact absurd rfl hp
    | cons q qs =>
      show replaceAllAux (q :: qs) repl (q :: qs) 0 = [] ++ repl
      simp only [replaceAllAux]
      rw [if_pos ⟨List.cons_ne_nil q qs,
        List.isPrefixOf_iff_prefix.mpr (List.prefix_refl (q :: qs))⟩]
      simp only [List.length_cons, Nat.add_sub_cancel]
      rw [replaceAllAux_skip_length]
      simp
  | cons c xs' ih =>
    intro h
    have h0 : pat.isPrefixOf (c :: (xs' ++ pat)) = false := by
      have := h 0 (by simp)
      simpa using this
    show replaceAllAux pat repl (c :: (xs' ++ pat)) 0 = (c :: xs') ++ repl
    simp only [replaceAllAux]
    rw [if_neg]
    · have hrest : ∀ i, i < xs'.length →
          pat.isPrefixOf ((xs' ++ pat).drop i) = false := by
        intro i hi
        have := h (i + 1) (by simpa using Nat.succ_lt_succ hi)
        simpa [List.drop_succ_cons] using this
      have := ih hrest
      unfold replaceAll at this
      rw [this]
      simp
    · intro hcond
      rw [h0] at hcond
      exact absurd hcond.2 (by simp)

/-- C7 counterexample: on the path `"a.html.html"` with target `fr`, the
source's `file_path.replace(".html", "-fr.html")` rewrites both
occurrences, producing `"a-fr.html-fr.html"` instead of the
`"a.html-fr.html"` the claim (replace only the trailing suffix)
requires. -/
theorem C7_output_path_counterexample :
    output_path "fr" "a.html.html" = "a-fr.html-fr.html" ∧
    output_path "fr" "a.html.html" ≠ "a.html-fr.html" := by
  constructor
  · rfl
  · decide

/-- C7 (amended): the output path is computed by replacing every
occurrence of `".html"` in the path with `"-<lang>.html"`; when the only
occurrence is the trailing suffix, this is exactly the suffix rewrite
the spec describes. -/
theorem C7_output_path_amended (lang base : String)
    (h : ∀ i, i < base.data.length →
      (".html".data.isPrefixOf ((base.data ++ ".html".data).drop i)) = false) :
    output_path lang (base ++ ".html") = base ++ ("-" ++ lang ++ ".html") := by
  apply String.ext
  show (replaceAll ".html".data ("-" ++ lang ++ ".html").data (base ++ ".html").data) =
    (base ++ ("-" ++ lang ++ ".html")).data
  rw [String.data_append base ".html", String.data_append base ("-" ++ lang ++ ".html")]
  exact replaceAll_no_earlier ".html".data ("-" ++ lang ++ ".html").data
    (by decide) base.data h

/-- C7 (amended) witness: the path `"about.html"`, whose only `".html"`
occurrence is the trailing one, maps to `"about-fr.html"`. -/
theorem C7_output_path_amended_witness :
    output_path "fr" ("about" ++ ".html") = "about" ++ ("-" ++ "fr" ++ ".html") :=
  C7_output_path_amended "fr" "about" (by decide)

/-- C8: a hyperlink `href` ending in `.html` but not in `-<lang>.html`
has its trailing `.html` rewritten to `-<lang>.html`; a `href` already
ending in `-<lang>.html` is untouched; a `href` not ending in `.html` is
untouched. -/
theorem C8_link_rewrite (lang href : String) :
    (pyEndswith href ".html" = true → pyEndswith href ("-" ++ lang ++ ".html") = false →
      ∃ stem, href = stem ++ ".html" ∧
        rewrite_href lang href = stem ++ ("-" ++ lang ++ ".html")) ∧
    (pyEndswith href ("-" ++ lang ++ ".html") = true → rewrite_href lang href = href) ∧
    (pyEndswith href ".html" = false → rewrite_href lang href = href) := by
  refine ⟨?_, ?_, ?_⟩
  · intro h1 h2
    have hsuf : ".html".data <:+ href.data := by
      unfold pyEndswith at h1
      exact List.isSuffixOf_iff_suffix.mp h1
    obtain ⟨pre, hpre⟩ := hsuf
    refine ⟨String.mk pre, ?_, ?_⟩
    · apply String.ext
      rw [String.data_append]
      exact hpre.symm
    · unfold rewrite_href
      rw [if_pos (by rw [h1, h2]; rfl)]
      have htake : href.data.take (href.data.length - ".html".data.length) = pre := by
        rw [← hpre]
        apply List.take_left'
        simp
      rw [htake]
  · intro h2
    unfold rewrite_href
    rw [if_neg]
    rw [h2]
    simp
  · intro h1
    unfold rewrite_href
    rw [if_neg]
    rw [h1]
    simp

/-- C8 witness: `about.html` becomes `about-fr.html`, a link already
ending in `-fr.html` is untouched, and `https://example.com` is
untouched. -/
theorem C8_link_rewrite_witness :
    (∃ stem, "about.html" = stem ++ ".html" ∧
      rewrite_href "fr" "about.html" = stem ++ ("-" ++ "fr" ++ ".html")) ∧
    rewrite_href "fr" "about-fr.html" = "about-fr.html" ∧
    rewrite_href "fr" "https://example.com" = "https://example.com" :=
  ⟨(C8_link_rewrite "fr" "about.html").1 rfl rfl,
    (C8_link_rewrite "fr" "about-fr.html").2.1 rfl,
    (C8_link_rewrite "fr" "https://example.com").2.2 rfl⟩

/-- C9: the `--include` flag is parsed but never read, so the batch
processes every discovered file regardless of it — with discovered files
`index.html` and `about.html` and `--include index.html`, the unlisted
`about.html` is still processed, contradicting the documented
restriction. -/
theorem C9_include_flag_ignored :
    processed_files ["index.html", "about.html"] (some "index.html") =
      ["index.html", "about.html"] ∧
    "about.html" ∈ processed_files ["index.html", "about.html"] (some "index.html") := by
  constructor
  · rfl
  · simp [processed_files]

end TranslateHtml
